import Mathlib

/-!
# Verification of the spark-note commit-and-nullify core

A shallow embedding of the `spark-note-poc` repository: the commitment and
nullifier derivation functions (`note.rs`, `nullifier.rs`), the validation
layer (`validation.rs`), the fixed-size `Nullifier` type (`nullifier_type.rs`),
the spent-set operations (`nullifier.rs`), the secret container's
serialization behaviour (`secret.rs`, `note.rs`) and the export/import wire
format (`serialization.rs`).

Bytes are modelled as `List Nat` (each element a `u8`, i.e. `< 256`), machine
words as `Nat` reduced modulo `2^32` or `2^64` where the Rust code relies on
fixed-width arithmetic. The SHA-256 and BLAKE3 primitives used by the code
through the `sha2` and `blake3` crates are implemented here in full so that
every derived quantity is executable.
-/

namespace Spark

/-- Byte strings (`Vec<u8>` / `&[u8]`): lists of naturals, each `< 256`. -/
abbrev Bytes := List Nat

/-- All elements of a byte string are genuine bytes. -/
abbrev ValidBytes (b : Bytes) : Prop := ∀ x ∈ b, x < 256

/-! ## 32-bit word arithmetic -/

/-- `2^32`, the modulus of `u32` arithmetic. -/
def M32 : Nat := 4294967296

/-- Wrapping 32-bit addition. -/
def add32 (a b : Nat) : Nat := (a + b) % M32

/-- Right rotation of a 32-bit word by `n` places (`0 < n < 32`). -/
def rotr32 (x n : Nat) : Nat := (x >>> n) ||| ((x % (1 <<< n)) <<< (32 - n))

/-- Big-endian 4-byte encoding of a 32-bit word. -/
def be4 (v : Nat) : List Nat :=
  [(v >>> 24) % 256, (v >>> 16) % 256, (v >>> 8) % 256, v % 256]

/-- Little-endian 4-byte encoding of a 32-bit word. -/
def le4 (v : Nat) : List Nat :=
  [v % 256, (v >>> 8) % 256, (v >>> 16) % 256, (v >>> 24) % 256]

/-- Big-endian 8-byte encoding of a `u64` (Rust `u64::to_be_bytes`). -/
def be8 (v : Nat) : List Nat :=
  [(v >>> 56) % 256, (v >>> 48) % 256, (v >>> 40) % 256, (v >>> 32) % 256,
   (v >>> 24) % 256, (v >>> 16) % 256, (v >>> 8) % 256, v % 256]

/-- Split a list into consecutive chunks of `k` elements (last one may be
shorter), by structural recursion on a fuel equal to the list length. -/
def chunksFuel (k : Nat) : Nat → List Nat → List (List Nat)
  | 0, _ => []
  | _ + 1, [] => []
  | fuel + 1, x :: xs => ((x :: xs).take k) :: chunksFuel k fuel ((x :: xs).drop k)

/-- Split a byte string into chunks of `k` bytes. -/
def chunksOf (k : Nat) (l : List Nat) : List (List Nat) := chunksFuel k l.length l

/-! ## SHA-256 (the `sha2` crate primitive used by `compute_commitment`) -/

/-- SHA-256 round constants. -/
def shaK : List Nat :=
  [1116352408, 1899447441, 3049323471, 3921009573, 961987163, 1508970993,
   2453635748, 2870763221, 3624381080, 310598401, 607225278, 1426881987,
   1925078388, 2162078206, 2614888103, 3248222580, 3835390401, 4022224774,
   264347078, 604807628, 770255983, 1249150122, 1555081692, 1996064986,
   2554220882, 2821834349, 2952996808, 3210313671, 3336571891, 3584528711,
   113926993, 338241895, 666307205, 773529912, 1294757372, 1396182291,
   1695183700, 1986661051, 2177026350, 2456956037, 2730485921, 2820302411,
   3259730800, 3345764771, 3516065817, 3600352804, 4094571909, 275423344,
   430227734, 506948616, 659060556, 883997877, 958139571, 1322822218,
   1537002063, 1747873779, 1955562222, 2024104815, 2227730452, 2361852424,
   2428436474, 2756734187, 3204031479, 3329325298]

/-- The eight 32-bit working variables of a SHA-256 compression. -/
structure Sha256State where
  a : Nat
  b : Nat
  c : Nat
  d : Nat
  e : Nat
  f : Nat
  g : Nat
  h : Nat
deriving DecidableEq

/-- SHA-256 initial hash value. -/
def shaInit : Sha256State :=
  ⟨1779033703, 3144134277, 1013904242, 2773480762,
   1359893119, 2600822924, 528734635, 1541459225⟩

/-- SHA-256 choice function. -/
def shaCh (e f g : Nat) : Nat := (e &&& f) ^^^ ((e ^^^ 4294967295) &&& g)

/-- SHA-256 majority function. -/
def shaMaj (a b c : Nat) : Nat := (a &&& b) ^^^ (a &&& c) ^^^ (b &&& c)

/-- SHA-256 big Σ₀. -/
def shaBigSigma0 (x : Nat) : Nat := rotr32 x 2 ^^^ rotr32 x 13 ^^^ rotr32 x 22

/-- SHA-256 big Σ₁. -/
def shaBigSigma1 (x : Nat) : Nat := rotr32 x 6 ^^^ rotr32 x 11 ^^^ rotr32 x 25

/-- SHA-256 small σ₀. -/
def shaSmallSigma0 (x : Nat) : Nat := rotr32 x 7 ^^^ rotr32 x 18 ^^^ (x >>> 3)

/-- SHA-256 small σ₁. -/
def shaSmallSigma1 (x : Nat) : Nat := rotr32 x 17 ^^^ rotr32 x 19 ^^^ (x >>> 10)

/-- One SHA-256 round: consume a `(round constant, schedule word)` pair. -/
def shaRound (st : Sha256State) (kw : Nat × Nat) : Sha256State :=
  let t1 := add32 st.h (add32 (shaBigSigma1 st.e)
    (add32 (shaCh st.e st.f st.g) (add32 kw.1 kw.2)))
  let t2 := add32 (shaBigSigma0 st.a) (shaMaj st.a st.b st.c)
  ⟨add32 t1 t2, st.a, st.b, st.c, add32 st.d t1, st.e, st.f, st.g⟩

/-- Group bytes into big-endian 32-bit words (complete groups of four). -/
def beWords : List Nat → List Nat
  | b0 :: b1 :: b2 :: b3 :: rest =>
      (((b0 * 256 + b1) * 256 + b2) * 256 + b3) :: beWords rest
  | _ => []

/-- Extend the 16-word message schedule by `k` further words. -/
def shaExtend : Nat → List Nat → List Nat
  | 0, w => w
  | k + 1, w =>
    let i := w.length
    shaExtend k (w ++ [add32
      (add32 (shaSmallSigma1 (w.getD (i - 2) 0)) (w.getD (i - 7) 0))
      (add32 (shaSmallSigma0 (w.getD (i - 15) 0)) (w.getD (i - 16) 0))])

/-- SHA-256 compression of one padded 64-byte block into the running state. -/
def shaCompress (st : Sha256State) (block : List Nat) : Sha256State :=
  let w := shaExtend 48 (beWords block)
  let r := (shaK.zip w).foldl shaRound st
  ⟨add32 st.a r.a, add32 st.b r.b, add32 st.c r.c, add32 st.d r.d,
   add32 st.e r.e, add32 st.f r.f, add32 st.g r.g, add32 st.h r.h⟩

/-- SHA-256 padding: a `0x80` byte, zeros to 56 mod 64, then the bit length
as 8 big-endian bytes. -/
def shaPad (msg : List Nat) : List Nat :=
  msg ++ 128 :: (List.replicate ((119 - msg.length % 64) % 64) 0 ++ be8 (8 * msg.length))

/-- Full SHA-256 digest of a byte string, as 32 bytes. -/
def sha256 (msg : List Nat) : List Nat :=
  let fin := (chunksOf 64 (shaPad msg)).foldl shaCompress shaInit
  be4 fin.a ++ be4 fin.b ++ be4 fin.c ++ be4 fin.d ++
  be4 fin.e ++ be4 fin.f ++ be4 fin.g ++ be4 fin.h

/-! ## BLAKE3 (the `blake3` crate primitive used by `generate_nullifier`) -/

/-- BLAKE3 initialization vector (also the key words in plain hash mode). -/
def b3IV : List Nat :=
  [1779033703, 3144134277, 1013904242, 2773480762,
   1359893119, 2600822924, 528734635, 1541459225]

/-- BLAKE3 message word permutation applied between rounds. -/
def b3Perm : List Nat := [2, 6, 3, 10, 7, 0, 4, 13, 1, 11, 12, 5, 9, 14, 15, 8]

/-- The BLAKE3 quarter-round `G`, mixing state words `a b c d` with message
words `mx my`. -/
def b3G (v : List Nat) (a b c d mx my : Nat) : List Nat :=
  let va := add32 (add32 (v.getD a 0) (v.getD b 0)) mx
  let vd := rotr32 ((v.getD d 0) ^^^ va) 16
  let vc := add32 (v.getD c 0) vd
  let vb := rotr32 ((v.getD b 0) ^^^ vc) 12
  let va2 := add32 (add32 va vb) my
  let vd2 := rotr32 (vd ^^^ va2) 8
  let vc2 := add32 vc vd2
  let vb2 := rotr32 (vb ^^^ vc2) 7
  (((v.set a va2).set b vb2).set c vc2).set d vd2

/-- One full BLAKE3 round: four column mixes then four diagonal mixes. -/
def b3Round (v m : List Nat) : List Nat :=
  let v1 := b3G v 0 4 8 12 (m.getD 0 0) (m.getD 1 0)
  let v2 := b3G v1 1 5 9 13 (m.getD 2 0) (m.getD 3 0)
  let v3 := b3G v2 2 6 10 14 (m.getD 4 0) (m.getD 5 0)
  let v4 := b3G v3 3 7 11 15 (m.getD 6 0) (m.getD 7 0)
  let v5 := b3G v4 0 5 10 15 (m.getD 8 0) (m.getD 9 0)
  let v6 := b3G v5 1 6 11 12 (m.getD 10 0) (m.getD 11 0)
  let v7 := b3G v6 2 7 8 13 (m.getD 12 0) (m.getD 13 0)
  b3G v7 3 4 9 14 (m.getD 14 0) (m.getD 15 0)

/-- Apply the BLAKE3 message permutation to the sixteen message words. -/
def b3Permute (m : List Nat) : List Nat := b3Perm.map (fun i => m.getD i 0)

/-- Run `k` BLAKE3 rounds, permuting the message words between rounds. -/
def b3Rounds : Nat → List Nat → List Nat → List Nat
  | 0, v, _ => v
  | k + 1, v, m => b3Rounds k (b3Round v m) (b3Permute m)

/-- BLAKE3 compression: chaining value `h` (8 words), message words `m`
(16 words), 64-bit counter `t`, block byte length `blen` and `flags`;
returns the 8-word output chaining value. -/
def b3Compress (h m : List Nat) (t blen flags : Nat) : List Nat :=
  let v0 := h.take 8 ++ b3IV.take 4 ++ [t % M32, (t >>> 32) % M32, blen, flags]
  let v := b3Rounds 7 v0 m
  [v.getD 0 0 ^^^ v.getD 8 0, v.getD 1 0 ^^^ v.getD 9 0,
   v.getD 2 0 ^^^ v.getD 10 0, v.getD 3 0 ^^^ v.getD 11 0,
   v.getD 4 0 ^^^ v.getD 12 0, v.getD 5 0 ^^^ v.getD 13 0,
   v.getD 6 0 ^^^ v.getD 14 0, v.getD 7 0 ^^^ v.getD 15 0]

/-- Group bytes into little-endian 32-bit words (complete groups of four). -/
def leWords : List Nat → List Nat
  | b0 :: b1 :: b2 :: b3 :: rest =>
      (b0 + 256 * b1 + 65536 * b2 + 16777216 * b3) :: leWords rest
  | _ => []

/-- The sixteen message words of a (zero-padded) 64-byte block. -/
def b3BlockWords (b : List Nat) : List Nat :=
  leWords (b ++ List.replicate (64 - b.length) 0)

/-- The blocks of a chunk; an empty chunk still has one (empty) block. -/
def b3ChunkBlocks (chunk : List Nat) : List (List Nat) :=
  match chunksOf 64 chunk with
  | [] => [[]]
  | bs => bs

/-- Fold the blocks of one chunk into a chaining value. Flag bits:
`CHUNK_START = 1` on the first block, `CHUNK_END = 2` on the last, plus
`finalFlags` (e.g. `ROOT = 8`) on the last. -/
def b3ChunkGo (chunkIdx : Nat) (cv : List Nat) (first : Bool) (finalFlags : Nat) :
    List (List Nat) → List Nat
  | [] => cv
  | [b] => b3Compress cv (b3BlockWords b) chunkIdx b.length
      ((if first then 1 else 0) ||| 2 ||| finalFlags)
  | b :: b2 :: rest =>
      b3ChunkGo chunkIdx
        (b3Compress cv (b3BlockWords b) chunkIdx b.length (if first then 1 else 0))
        false finalFlags (b2 :: rest)

/-- Chaining value of chunk number `chunkIdx` with content `chunk`. -/
def b3ChunkCV (chunkIdx : Nat) (chunk : List Nat) (finalFlags : Nat) : List Nat :=
  b3ChunkGo chunkIdx b3IV true finalFlags (b3ChunkBlocks chunk)

/-- Combine two child chaining values into a parent (`PARENT = 4`, plus
`ROOT = 8` when this parent is the root). -/
def b3ParentCV (l r : List Nat) (extraFlags : Nat) : List Nat :=
  b3Compress b3IV (l ++ r) 0 64 (4 ||| extraFlags)

/-- Largest power of two strictly below `n` (for `n ≥ 2`), by doubling. -/
def largestPow2LtFuel : Nat → Nat → Nat → Nat
  | 0, acc, _ => acc
  | f + 1, acc, n => if 2 * acc < n then largestPow2LtFuel f (2 * acc) n else acc

/-- Largest power of two strictly below `n`, for `n ≥ 2`. -/
def largestPow2Lt (n : Nat) : Nat := largestPow2LtFuel n 1 n

/-- Combine a non-empty list of subtree chaining values into one, splitting
at the largest power of two, as in the BLAKE3 tree; non-root. -/
def b3CombineFuel : Nat → List (List Nat) → List Nat
  | 0, _ => []
  | _ + 1, [] => []
  | _ + 1, [cv] => cv
  | f + 1, cv1 :: cv2 :: rest =>
      let cvs := cv1 :: cv2 :: rest
      let k := largestPow2Lt cvs.length
      b3ParentCV (b3CombineFuel f (cvs.take k)) (b3CombineFuel f (cvs.drop k)) 0

/-- Chaining values of a list of chunks starting at chunk index `idx`. -/
def b3ChunkCVs (idx : Nat) : List (List Nat) → List (List Nat)
  | [] => []
  | c :: cs => b3ChunkCV idx c 0 :: b3ChunkCVs (idx + 1) cs

/-- The 1024-byte chunks of the input; empty input is one empty chunk. -/
def b3Chunks (input : List Nat) : List (List Nat) :=
  match chunksOf 1024 input with
  | [] => [[]]
  | cs => cs

/-- Serialize the first eight words of a chaining value little-endian:
the 32-byte default BLAKE3 output. -/
def le32 (cv : List Nat) : List Nat :=
  le4 (cv.getD 0 0) ++ le4 (cv.getD 1 0) ++ le4 (cv.getD 2 0) ++ le4 (cv.getD 3 0) ++
  le4 (cv.getD 4 0) ++ le4 (cv.getD 5 0) ++ le4 (cv.getD 6 0) ++ le4 (cv.getD 7 0)

/-- Full BLAKE3 hash (default 32-byte output) of a byte string. -/
def blake3 (input : List Nat) : List Nat :=
  match b3Chunks input with
  | [c] => le32 (b3ChunkCV 0 c 8)
  | cs =>
      let cvs := b3ChunkCVs 0 cs
      let k := largestPow2Lt cvs.length
      le32 (b3ParentCV (b3CombineFuel cvs.length (cvs.take k))
        (b3CombineFuel cvs.length (cvs.drop k)) 8)

/-! ## Error taxonomy (`error.rs`) -/

/-- `SecretErrorCode` from `error.rs`. -/
inductive SecretErrorCode where
  | Empty
  | TooShort
  | TooLong
  | InvalidFormat
deriving DecidableEq

/-- `ValueErrorCode` from `error.rs`. -/
inductive ValueErrorCode where
  | Zero
  | ExceedsMax
  | Invalid
deriving DecidableEq

/-- `NullifierErrorCode` from `error.rs`. -/
inductive NullifierErrorCode where
  | AlreadySpent
  | InvalidFormat
  | Empty
  | WrongLength
deriving DecidableEq

/-- `SparkError` from `error.rs`. Each variant carries its human-readable
message and, where present, the machine error code. -/
inductive SparkError where
  | InvalidSecret (code : SecretErrorCode) (message : String)
  | InvalidValue (code : ValueErrorCode) (message : String)
  | NullifierError (code : NullifierErrorCode) (message : String)
  | WASMInitializationError (message : String)
  | SerializationError (message : String)
  | OperationError (message : String)
deriving DecidableEq

/-- `SparkError::invalid_secret` constructor helper. -/
def SparkError.invalid_secret (code : SecretErrorCode) (message : String) : SparkError :=
  .InvalidSecret code message

/-- `SparkError::invalid_value` constructor helper. -/
def SparkError.invalid_value (code : ValueErrorCode) (message : String) : SparkError :=
  .InvalidValue code message

/-- `SparkError::nullifier_error` constructor helper. -/
def SparkError.nullifier_error (code : NullifierErrorCode) (message : String) : SparkError :=
  .NullifierError code message

/-! ## Validation layer (`validation.rs`) -/

/-- `MIN_SECRET_LENGTH` from `validation.rs`. -/
def MIN_SECRET_LENGTH : Nat := 8

/-- `MAX_SECRET_LENGTH` from `validation.rs`. -/
def MAX_SECRET_LENGTH : Nat := 1024

/-- `NULLIFIER_LENGTH` from `validation.rs`. -/
def NULLIFIER_LENGTH : Nat := 32

/-- `validate_secret` from `validation.rs`: empty, then too-short, then
too-long, in that order. -/
def validate_secret (secret : Bytes) : Except SparkError Unit :=
  if secret.isEmpty then
    .error (SparkError.invalid_secret .Empty "Secret cannot be empty")
  else if secret.length < MIN_SECRET_LENGTH then
    .error (SparkError.invalid_secret .TooShort
      ("Secret must be at least " ++ toString MIN_SECRET_LENGTH ++
       " bytes, got " ++ toString secret.length))
  else if secret.length > MAX_SECRET_LENGTH then
    .error (SparkError.invalid_secret .TooLong
      ("Secret must be at most " ++ toString MAX_SECRET_LENGTH ++
       " bytes, got " ++ toString secret.length))
  else
    .ok ()

/-- `validate_value` from `validation.rs`: only zero is rejected. -/
def validate_value (value : Nat) : Except SparkError Unit :=
  if value = 0 then
    .error (SparkError.invalid_value .Zero "Value must be greater than zero")
  else
    .ok ()

/-- `validate_nullifier` from `validation.rs`: empty is the distinguished
case, then any length other than `NULLIFIER_LENGTH` is rejected. -/
def validate_nullifier (nullifier : Bytes) : Except SparkError Unit :=
  if nullifier.isEmpty then
    .error (SparkError.nullifier_error .Empty "Nullifier cannot be empty")
  else if nullifier.length ≠ NULLIFIER_LENGTH then
    .error (SparkError.nullifier_error .WrongLength
      ("Nullifier must be exactly " ++ toString NULLIFIER_LENGTH ++
       " bytes, got " ++ toString nullifier.length))
  else
    .ok ()

/-! ## Secret container (`secret.rs`)

The zeroize-on-drop side effect is a memory property outside a shallow
embedding; the byte content and the custom serde behaviour are modelled. -/

/-- `Secret(Vec<u8>)` from `secret.rs`. -/
structure Secret where
  data : Bytes
deriving DecidableEq

/-- `Secret::as_bytes`. -/
def Secret.as_bytes (s : Secret) : Bytes := s.data

/-- `Secret::len`. -/
def Secret.len (s : Secret) : Nat := s.data.length

/-! ## A shallow model of the serde data model

Only what the custom `Serialize` impls of `Secret` and `SparkNote` emit:
a byte string, an unsigned integer, or a named struct with named fields. -/

/-- The serde output values produced by this crate's custom `Serialize`
implementations. -/
inductive SerdeValue where
  | bytes (b : Bytes)
  | uint (n : Nat)
  | obj (structName : String) (fields : List (String × SerdeValue))

/-- The field names of a serialized struct (empty for non-structs). -/
def SerdeValue.fieldNames : SerdeValue → List String
  | .obj _ fields => fields.map Prod.fst
  | _ => []

/-- `impl Serialize for Secret` from `secret.rs`: emits
`serializer.serialize_bytes(&[])`, a placeholder that ignores the actual
secret content. -/
def serialize_secret (_s : Secret) : SerdeValue := .bytes []

/-! ## Note entity (`note.rs`) -/

/-- The commitment domain-separation tag `b"SPARK_COMMITMENT_V1"`. -/
def commitmentDomainTag : Bytes := "SPARK_COMMITMENT_V1".toList.map Char.toNat

/-- An incremental SHA-256 hasher (the `sha2` crate's streaming interface):
`update` appends to the pending input, `finalize` digests it. -/
structure Sha256Hasher where
  buffer : Bytes

/-- `Sha256::new()`. -/
def Sha256Hasher.create : Sha256Hasher := ⟨[]⟩

/-- `Hasher::update`. -/
def Sha256Hasher.update (h : Sha256Hasher) (d : Bytes) : Sha256Hasher := ⟨h.buffer ++ d⟩

/-- `Hasher::finalize`. -/
def Sha256Hasher.finalize (h : Sha256Hasher) : Bytes := sha256 h.buffer

/-- `compute_commitment` from `note.rs`: update with the domain tag, the
value as 8 big-endian bytes, the secret length as 8 big-endian bytes, then
the secret; finalize. -/
def compute_commitment (value : Nat) (secret : Bytes) : Bytes :=
  (((((Sha256Hasher.create).update commitmentDomainTag).update
    (be8 value)).update (be8 secret.length)).update secret).finalize

/-- `SparkNote` from `note.rs`: public `value` and `commitment`, private
`secret`. -/
structure SparkNote where
  value : Nat
  commitment : Bytes
  secret : Secret
deriving DecidableEq

/-- `SparkNote::new` from `note.rs`: validate the value, then the secret,
then derive the commitment. -/
def SparkNote.create (value : Nat) (secret : Secret) : Except SparkError SparkNote :=
  match validate_value value with
  | .error e => .error e
  | .ok _ =>
    match validate_secret secret.as_bytes with
    | .error e => .error e
    | .ok _ => .ok ⟨value, compute_commitment value secret.as_bytes, secret⟩

/-- `create_note` from `note.rs` (convenience wrapper over `SparkNote::new`). -/
def create_note (value : Nat) (secret : Secret) : Except SparkError SparkNote :=
  SparkNote.create value secret

/-- `impl Serialize for SparkNote` from `note.rs`: a two-field struct holding
only `value` and `commitment`. -/
def serialize_note (note : SparkNote) : SerdeValue :=
  .obj "SparkNote" [("value", .uint note.value), ("commitment", .bytes note.commitment)]

/-! ## Fixed-size nullifier type (`nullifier_type.rs`)

Rust's `Nullifier([u8; 32])` carries the 32-byte bound in its type; here the
bound is established by `from_slice`'s validation instead. -/

/-- `Nullifier` from `nullifier_type.rs`. -/
structure Nullifier where
  bytes : Bytes
deriving DecidableEq

/-- `Nullifier::new`. -/
def Nullifier.create (b : Bytes) : Nullifier := ⟨b⟩

/-- `Nullifier::as_bytes`. -/
def Nullifier.as_bytes (n : Nullifier) : Bytes := n.bytes

/-- `Nullifier::to_vec`. -/
def Nullifier.to_vec (n : Nullifier) : Bytes := n.bytes

/-- `Nullifier::from_slice` from `nullifier_type.rs`: validate, then copy. -/
def Nullifier.from_slice (slice : Bytes) : Except SparkError Nullifier :=
  match validate_nullifier slice with
  | .error e => .error e
  | .ok _ => .ok ⟨slice⟩

/-! ## Nullifier generation and spent tracking (`nullifier.rs`) -/

/-- An incremental BLAKE3 hasher (the `blake3` crate's streaming interface). -/
structure Blake3Hasher where
  buffer : Bytes

/-- `blake3::Hasher::new()`. -/
def Blake3Hasher.create : Blake3Hasher := ⟨[]⟩

/-- `blake3::Hasher::update`. -/
def Blake3Hasher.update (h : Blake3Hasher) (d : Bytes) : Blake3Hasher := ⟨h.buffer ++ d⟩

/-- `blake3::Hasher::finalize`. -/
def Blake3Hasher.finalize (h : Blake3Hasher) : Bytes := blake3 h.buffer

/-- `generate_nullifier` from `nullifier.rs`: BLAKE3 over the commitment
followed by the secret bytes. -/
def generate_nullifier (note : SparkNote) (secret : Secret) : Nullifier :=
  Nullifier.create
    ((((Blake3Hasher.create).update note.commitment).update secret.as_bytes).finalize)

/-- `NullifierSet` from `nullifier.rs`: a `HashSet<Nullifier>`, modelled as a
duplicate-free list with insert-if-absent. -/
structure NullifierSet where
  spent_set : List Nullifier

/-- `NullifierSet::new`. -/
def NullifierSet.create : NullifierSet := ⟨[]⟩

/-- `NullifierSet::contains` (`HashSet::contains`). -/
def NullifierSet.contains (s : NullifierSet) (n : Nullifier) : Bool :=
  decide (n ∈ s.spent_set)

/-- `NullifierSet::add` (`HashSet::insert`): returns whether the element was
newly inserted, together with the updated set. -/
def NullifierSet.add (s : NullifierSet) (n : Nullifier) : Bool × NullifierSet :=
  if n ∈ s.spent_set then (false, s) else (true, ⟨n :: s.spent_set⟩)

/-- `NullifierSet::contains_slice` from `nullifier.rs`: parse, then look up;
parse failure is silently `false`. `NoteManager::is_nullifier_spent` in
`manager.rs` forwards to this function unchanged. -/
def NullifierSet.contains_slice (s : NullifierSet) (nullifier : Bytes) : Bool :=
  match Nullifier.from_slice nullifier with
  | .ok n => s.contains n
  | .error _ => false

/-- The legacy spent set `HashSet<Vec<u8>>`, modelled as a duplicate-free
list of byte strings. -/
abbrev SpentSet := List Bytes

/-- `HashSet::contains` on the legacy spent set. -/
def spentContains (spent_set : SpentSet) (n : Bytes) : Bool := decide (n ∈ spent_set)

/-- `HashSet::insert` on the legacy spent set (insert if absent). -/
def spentInsert (spent_set : SpentSet) (n : Bytes) : SpentSet :=
  if n ∈ spent_set then spent_set else n :: spent_set

/-- `is_nullifier_spent` from `nullifier.rs`: when the bytes parse as a
`Nullifier` the raw bytes are looked up; otherwise the answer is `false`. -/
def is_nullifier_spent (nullifier : Bytes) (spent_set : SpentSet) : Bool :=
  match Nullifier.from_slice nullifier with
  | .ok _ => spentContains spent_set nullifier
  | .error _ => false

/-- `mark_as_spent` from `nullifier.rs`. The Rust function mutates
`spent_set` in place; the model returns the operation result together with
the set as left behind by the call. -/
def mark_as_spent (nullifier : Bytes) (spent_set : SpentSet) :
    Except SparkError Unit × SpentSet :=
  match validate_nullifier nullifier with
  | .error e => (.error e, spent_set)
  | .ok _ =>
    if nullifier ∈ spent_set then
      (.error (SparkError.nullifier_error .AlreadySpent "Nullifier is already spent"),
       spent_set)
    else
      (.ok (), spentInsert spent_set nullifier)

/-- `mark_multiple_as_spent` from `nullifier.rs`: iterate over the batch,
validating and inserting one nullifier at a time, stopping at the first
failure. Insertions made before a failure persist, exactly as in the Rust
loop over the mutable set. -/
def mark_multiple_as_spent (nullifiers : List Bytes) (spent_set : SpentSet) :
    Except SparkError Unit × SpentSet :=
  match nullifiers with
  | [] => (.ok (), spent_set)
  | n :: rest =>
    match validate_nullifier n with
    | .error e => (.error e, spent_set)
    | .ok _ =>
      if n ∈ spent_set then
        (.error (SparkError.nullifier_error .AlreadySpent
          "One or more nullifiers are already spent"), spent_set)
      else
        mark_multiple_as_spent rest (spentInsert spent_set n)

/-! ## Export/import wire format (`serialization.rs`)

`serde_json` and the `hex` crate are external collaborators. The JSON text
layer (`serde_json::to_string` / `from_str`), which is a faithful round-trip
for this struct, is elided: `export_nullifier_set` produces and
`import_nullifier_set` consumes the `NullifierSetExport` value itself. Hex
encoding and decoding are modelled in full. -/

/-- `CURRENT_VERSION` from `serialization.rs`. -/
def CURRENT_VERSION : Nat := 1

/-- `NullifierSetExport` from `serialization.rs`. -/
structure NullifierSetExport where
  version : Nat
  nullifiers : List String
deriving DecidableEq

/-- Lowercase hex digit for a value `< 16` (`hex::encode` is lowercase). -/
def hexDigit (n : Nat) : Char :=
  if n < 10 then Char.ofNat (48 + n) else Char.ofNat (87 + n)

/-- Two-character lowercase hex encoding of one byte. -/
def hexEncodeByte (b : Nat) : List Char := [hexDigit (b / 16), hexDigit (b % 16)]

/-- `hex::encode`: lowercase hex string of a byte string. -/
def hexEncode (bs : Bytes) : String := ⟨(bs.map hexEncodeByte).flatten⟩

/-- Value of one hex character; accepts both cases, as `hex::decode` does. -/
def hexDigitVal (c : Char) : Option Nat :=
  if 48 ≤ c.toNat ∧ c.toNat ≤ 57 then some (c.toNat - 48)
  else if 97 ≤ c.toNat ∧ c.toNat ≤ 102 then some (c.toNat - 87)
  else if 65 ≤ c.toNat ∧ c.toNat ≤ 70 then some (c.toNat - 55)
  else none

/-- Decode a hex character list two characters at a time; odd length or a
non-hex character fails, as in `hex::decode`. -/
def hexDecodeChars : List Char → Option Bytes
  | [] => some []
  | [_] => none
  | c1 :: c2 :: rest =>
    match hexDigitVal c1, hexDigitVal c2, hexDecodeChars rest with
    | some hi, some lo, some bs => some ((16 * hi + lo) :: bs)
    | _, _, _ => none

/-- `hex::decode` on a string. -/
def hexDecode (s : String) : Option Bytes := hexDecodeChars s.toList

/-- `export_nullifier_set` from `serialization.rs`: hex-encode every member
and tag the payload with `CURRENT_VERSION`. -/
def export_nullifier_set (spent_set : SpentSet) : NullifierSetExport :=
  ⟨CURRENT_VERSION, spent_set.map hexEncode⟩

/-- The import loop of `import_nullifier_set`: hex-decode each string,
validate the decoded bytes, and insert into the accumulating set; any
failure aborts the whole import. -/
def importLoop : List String → SpentSet → Except SparkError SpentSet
  | [], acc => .ok acc
  | h :: rest, acc =>
    match hexDecode h with
    | none => .error (.SerializationError "Invalid hex encoding")
    | some nb =>
      match validate_nullifier nb with
      | .error e => .error e
      | .ok _ => importLoop rest (spentInsert acc nb)

/-- `import_nullifier_set` from `serialization.rs`: reject a version above
`CURRENT_VERSION`, then decode and validate every nullifier string. -/
def import_nullifier_set (e : NullifierSetExport) : Except SparkError SpentSet :=
  if e.version > CURRENT_VERSION then
    .error (.SerializationError ("Unsupported version: " ++ toString e.version ++
      " (current: " ++ toString CURRENT_VERSION ++ ")"))
  else
    importLoop e.nullifiers []

/-! ## Supporting lemmas -/

/-- A SHA-256 digest is always exactly 32 bytes. -/
theorem sha256_length (msg : List Nat) : (sha256 msg).length = 32 := by
  simp [sha256, be4]

/-- A BLAKE3 digest is always exactly 32 bytes. -/
theorem blake3_length (input : List Nat) : (blake3 input).length = 32 := by
  unfold blake3
  rcases b3Chunks input with _ | ⟨c, _ | ⟨c2, cs⟩⟩ <;> simp [le32, le4]

/-- `validate_nullifier` accepts exactly the 32-byte strings. -/
theorem validate_nullifier_ok (n : Bytes) (h : n.length = 32) :
    validate_nullifier n = .ok () := by
  have hne : n.isEmpty = false := by
    cases n with
    | nil => simp at h
    | cons a l => rfl
  simp [validate_nullifier, hne, NULLIFIER_LENGTH, h]

/-- `validate_nullifier` rejects the empty byte string with the
distinguished `Empty` code. -/
theorem validate_nullifier_empty (n : Bytes) (h : n.length = 0) :
    validate_nullifier n =
      .error (SparkError.NullifierError .Empty "Nullifier cannot be empty") := by
  have : n = [] := List.length_eq_zero.mp h
  subst this
  rfl

/-- `validate_nullifier` rejects any other length with `WrongLength`. -/
theorem validate_nullifier_wrong_length (n : Bytes) (h32 : n.length ≠ 32) (h0 : n.length ≠ 0) :
    validate_nullifier n =
      .error (SparkError.NullifierError .WrongLength
        ("Nullifier must be exactly " ++ toString NULLIFIER_LENGTH ++
         " bytes, got " ++ toString n.length)) := by
  have hne : n.isEmpty = false := by
    cases n with
    | nil => simp at h0
    | cons a l => rfl
  simp [validate_nullifier, hne, NULLIFIER_LENGTH, h32, SparkError.nullifier_error]

/-- On a byte string whose length is not 32, `Nullifier.from_slice` fails. -/
theorem from_slice_malformed (n : Bytes) (h : n.length ≠ 32) :
    ∃ e, Nullifier.from_slice n = .error e := by
  by_cases h0 : n.length = 0
  · exact ⟨_, by rw [Nullifier.from_slice, validate_nullifier_empty n h0]⟩
  · exact ⟨_, by rw [Nullifier.from_slice, validate_nullifier_wrong_length n h h0]⟩

/-! ## Claim theorems -/

/-- C8: `Nullifier::from_slice` succeeds exactly on 32-byte input, copying
the bytes; the empty slice fails with the distinguished `Empty` code and
every other wrong length fails with `WrongLength`. -/
theorem from_slice_length_contract (s : Bytes) :
    (s.length = 32 → Nullifier.from_slice s = .ok ⟨s⟩) ∧
    (s.length = 0 → Nullifier.from_slice s =
      .error (SparkError.NullifierError .Empty "Nullifier cannot be empty")) ∧
    (s.length ≠ 32 → s.length ≠ 0 → Nullifier.from_slice s =
      .error (SparkError.NullifierError .WrongLength
        ("Nullifier must be exactly " ++ toString NULLIFIER_LENGTH ++
         " bytes, got " ++ toString s.length))) := by
  refine ⟨fun h => ?_, fun h => ?_, fun h32 h0 => ?_⟩
  · rw [Nullifier.from_slice, validate_nullifier_ok s h]
  · rw [Nullifier.from_slice, validate_nullifier_empty s h]
  · rw [Nullifier.from_slice, validate_nullifier_wrong_length s h32 h0]

/-- Witness for C8 at lengths 32, 0 and 1. -/
theorem from_slice_length_contract_witness :
    (List.replicate 32 7 : Bytes).length = 32 ∧
    Nullifier.from_slice (List.replicate 32 7) = .ok ⟨List.replicate 32 7⟩ ∧
    ([] : Bytes).length = 0 ∧
    Nullifier.from_slice [] =
      .error (SparkError.NullifierError .Empty "Nullifier cannot be empty") ∧
    ([5] : Bytes).length ≠ 32 ∧ ([5] : Bytes).length ≠ 0 ∧
    Nullifier.from_slice [5] =
      .error (SparkError.NullifierError .WrongLength
        ("Nullifier must be exactly " ++ toString NULLIFIER_LENGTH ++
         " bytes, got " ++ toString ([5] : Bytes).length)) :=
  ⟨by decide, (from_slice_length_contract (List.replicate 32 7)).1 (by decide),
   by decide, (from_slice_length_contract []).2.1 (by decide),
   by decide, by decide, (from_slice_length_contract [5]).2.2 (by decide) (by decide)⟩

/-- C10: membership queries on raw byte slices never error: any slice whose
length is not 32 (the empty slice included) is silently reported as
not-spent by both `NullifierSet::contains_slice` (to which
`NoteManager::is_nullifier_spent` delegates) and the legacy
`is_nullifier_spent`, for every spent set. -/
theorem malformed_slice_reports_unspent (nb : Bytes) (hlen : nb.length ≠ 32) :
    (∀ ns : NullifierSet, ns.contains_slice nb = false) ∧
    (∀ spent_set : SpentSet, is_nullifier_spent nb spent_set = false) := by
  obtain ⟨e, he⟩ := from_slice_malformed nb hlen
  exact ⟨fun ns => by rw [NullifierSet.contains_slice, he],
         fun spent_set => by rw [is_nullifier_spent, he]⟩

/-- Witness for C10 at a 3-byte slice and the empty slice. -/
theorem malformed_slice_reports_unspent_witness :
    ([1, 2, 3] : Bytes).length ≠ 32 ∧
    NullifierSet.contains_slice ⟨[⟨List.replicate 32 1⟩]⟩ [1, 2, 3] = false ∧
    is_nullifier_spent [1, 2, 3] [[1, 2, 3]] = false ∧
    ([] : Bytes).length ≠ 32 ∧
    is_nullifier_spent [] [[]] = false :=
  ⟨by decide,
   (malformed_slice_reports_unspent [1, 2, 3] (by decide)).1 ⟨[⟨List.replicate 32 1⟩]⟩,
   (malformed_slice_reports_unspent [1, 2, 3] (by decide)).2 [[1, 2, 3]],
   by decide,
   (malformed_slice_reports_unspent [] (by decide)).2 [[]]⟩

/-- C7: serializing secret-bearing types never exposes the secret: a
`Secret` serializes to the empty placeholder independently of its content,
and a `SparkNote` serializes to exactly the fields `value` and `commitment`,
independently of its secret. -/
theorem serialization_hides_secret :
    (∀ s1 s2 : Secret, serialize_secret s1 = serialize_secret s2) ∧
    (∀ s : Secret, serialize_secret s = .bytes []) ∧
    (∀ (v : Nat) (c : Bytes) (s1 s2 : Secret),
      serialize_note ⟨v, c, s1⟩ = serialize_note ⟨v, c, s2⟩) ∧
    (∀ note : SparkNote, (serialize_note note).fieldNames = ["value", "commitment"]) ∧
    (∀ note : SparkNote, serialize_note note =
      .obj "SparkNote" [("value", .uint note.value), ("commitment", .bytes note.commitment)]) :=
  ⟨fun _ _ => rfl, fun _ => rfl, fun _ _ _ _ => rfl, fun _ => rfl, fun _ => rfl⟩

/-- C5: note-construction validation boundaries: value 0 always fails with
`InvalidValue/Zero`; secrets of length 0, 7, 1025 fail with
`Empty`, `TooShort`, `TooLong` respectively; and for any nonzero value,
secrets of length exactly `MIN_SECRET_LENGTH = 8` and exactly
`MAX_SECRET_LENGTH = 1024` are accepted. -/
theorem validation_boundaries :
    (∀ secret : Secret, create_note 0 secret =
      .error (SparkError.InvalidValue .Zero "Value must be greater than zero")) ∧
    (∀ s : Bytes, s.length = 7 → validate_secret s =
      .error (SparkError.InvalidSecret .TooShort
        ("Secret must be at least " ++ toString MIN_SECRET_LENGTH ++
         " bytes, got " ++ toString s.length))) ∧
    (∀ s : Bytes, s.length = 1025 → validate_secret s =
      .error (SparkError.InvalidSecret .TooLong
        ("Secret must be at most " ++ toString MAX_SECRET_LENGTH ++
         " bytes, got " ++ toString s.length))) ∧
    (∀ s : Bytes, s.length = 0 → validate_secret s =
      .error (SparkError.InvalidSecret .Empty "Secret cannot be empty")) ∧
    (∀ (v : Nat) (s : Bytes), v ≠ 0 → s.length = 8 →
      ∃ note, create_note v ⟨s⟩ = .ok note) ∧
    (∀ (v : Nat) (s : Bytes), v ≠ 0 → s.length = 1024 →
      ∃ note, create_note v ⟨s⟩ = .ok note) ∧
    MIN_SECRET_LENGTH = 8 ∧ MAX_SECRET_LENGTH = 1024 := by
  have hval : ∀ v : Nat, v ≠ 0 → validate_value v = .ok () := by
    intro v hv
    simp [validate_value, hv]
  have hsec : ∀ s : Bytes, s.length = 8 ∨ s.length = 1024 → validate_secret s = .ok () := by
    intro s hs
    have hne : s.isEmpty = false := by
      cases s with
      | nil => rcases hs with h | h <;> simp at h
      | cons a l => rfl
    rcases hs with h | h <;>
      simp [validate_secret, hne, h, MIN_SECRET_LENGTH, MAX_SECRET_LENGTH]
  refine ⟨fun secret => rfl, fun s h => ?_, fun s h => ?_, fun s h => ?_,
    fun v s hv h => ?_, fun v s hv h => ?_, rfl, rfl⟩
  · have hne : s.isEmpty = false := by
      cases s with
      | nil => simp at h
      | cons a l => rfl
    simp [validate_secret, hne, h, MIN_SECRET_LENGTH, SparkError.invalid_secret]
  · have hne : s.isEmpty = false := by
      cases s with
      | nil => simp at h
      | cons a l => rfl
    simp [validate_secret, hne, h, MIN_SECRET_LENGTH, MAX_SECRET_LENGTH,
      SparkError.invalid_secret]
  · have : s = [] := List.length_eq_zero.mp h
    subst this
    rfl
  · refine ⟨⟨v, compute_commitment v s, ⟨s⟩⟩, ?_⟩
    unfold create_note SparkNote.create
    simp only [Secret.as_bytes]
    rw [hval v hv, hsec s (Or.inl h)]
  · refine ⟨⟨v, compute_commitment v s, ⟨s⟩⟩, ?_⟩
    unfold create_note SparkNote.create
    simp only [Secret.as_bytes]
    rw [hval v hv, hsec s (Or.inr h)]

/-- Witness for C5 at value 0, secret lengths 7, 1025, 0, 8 and 1024. -/
theorem validation_boundaries_witness :
    (create_note 0 ⟨[1, 2, 3, 4, 5, 6, 7, 8]⟩ =
      .error (SparkError.InvalidValue .Zero "Value must be greater than zero")) ∧
    ((List.replicate 7 1 : Bytes).length = 7 ∧ validate_secret (List.replicate 7 1) =
      .error (SparkError.InvalidSecret .TooShort
        ("Secret must be at least " ++ toString MIN_SECRET_LENGTH ++
         " bytes, got " ++ toString (List.replicate 7 1 : Bytes).length))) ∧
    ((List.replicate 1025 1 : Bytes).length = 1025 ∧
      validate_secret (List.replicate 1025 1) =
      .error (SparkError.InvalidSecret .TooLong
        ("Secret must be at most " ++ toString MAX_SECRET_LENGTH ++
         " bytes, got " ++ toString (List.replicate 1025 1 : Bytes).length))) ∧
    (validate_secret [] =
      .error (SparkError.InvalidSecret .Empty "Secret cannot be empty")) ∧
    ((3 : Nat) ≠ 0 ∧ (List.replicate 8 1 : Bytes).length = 8 ∧
      ∃ note, create_note 3 ⟨List.replicate 8 1⟩ = .ok note) ∧
    ((3 : Nat) ≠ 0 ∧ (List.replicate 1024 1 : Bytes).length = 1024 ∧
      ∃ note, create_note 3 ⟨List.replicate 1024 1⟩ = .ok note) :=
  ⟨(validation_boundaries).1 ⟨[1, 2, 3, 4, 5, 6, 7, 8]⟩,
   ⟨by simp only [List.length_replicate],
    (validation_boundaries).2.1 (List.replicate 7 1) (by simp only [List.length_replicate])⟩,
   ⟨by simp only [List.length_replicate],
    (validation_boundaries).2.2.1 (List.replicate 1025 1) (by simp only [List.length_replicate])⟩,
   (validation_boundaries).2.2.2.1 [] (by decide),
   ⟨by decide, by simp only [List.length_replicate],
    (validation_boundaries).2.2.2.2.1 3 (List.replicate 8 1)
     (by decide) (by simp only [List.length_replicate])⟩,
   ⟨by decide, by simp only [List.length_replicate],
    (validation_boundaries).2.2.2.2.2.1 3 (List.replicate 1024 1)
     (by decide) (by simp only [List.length_replicate])⟩⟩

/-- C2: for valid inputs, `compute_commitment` is exactly the SHA-256 digest
of the domain tag, the value as 8 big-endian bytes, the secret length as 8
big-endian bytes, and the secret bytes, in that order; the result is 32
bytes and two calls on identical input agree (the function is pure). -/
theorem commitment_structure (v : Nat) (s : Bytes)
    (_hv : v ≠ 0) (_hmin : 8 ≤ s.length) (_hmax : s.length ≤ 1024) :
    compute_commitment v s =
      sha256 (commitmentDomainTag ++ be8 v ++ be8 s.length ++ s) ∧
    (compute_commitment v s).length = 32 ∧
    compute_commitment v s = compute_commitment v s := by
  refine ⟨?_, ?_, rfl⟩
  · simp [compute_commitment, Sha256Hasher.create, Sha256Hasher.update,
      Sha256Hasher.finalize]
  · simp [compute_commitment, Sha256Hasher.create, Sha256Hasher.update,
      Sha256Hasher.finalize, sha256_length]

/-- Witness for C2 at value 1000 and secret `[1..8]`. -/
theorem commitment_structure_witness :
    (1000 : Nat) ≠ 0 ∧ 8 ≤ ([1, 2, 3, 4, 5, 6, 7, 8] : Bytes).length ∧
    ([1, 2, 3, 4, 5, 6, 7, 8] : Bytes).length ≤ 1024 ∧
    (compute_commitment 1000 [1, 2, 3, 4, 5, 6, 7, 8] =
      sha256 (commitmentDomainTag ++ be8 1000 ++
        be8 ([1, 2, 3, 4, 5, 6, 7, 8] : Bytes).length ++ [1, 2, 3, 4, 5, 6, 7, 8]) ∧
     (compute_commitment 1000 [1, 2, 3, 4, 5, 6, 7, 8]).length = 32 ∧
     compute_commitment 1000 [1, 2, 3, 4, 5, 6, 7, 8] =
       compute_commitment 1000 [1, 2, 3, 4, 5, 6, 7, 8]) :=
  ⟨by decide, by decide, by decide,
   commitment_structure 1000 [1, 2, 3, 4, 5, 6, 7, 8] (by decide) (by decide) (by decide)⟩

set_option maxRecDepth 40000 in
/-- C4: `generate_nullifier` is exactly BLAKE3 (a hash distinct from the
commitment's SHA-256, witnessed by the two functions disagreeing) over the
commitment bytes followed by the raw secret bytes with no length prefix; it
is 32 bytes and deterministic. In the concrete scenario value 1000 and
secret `[1..8]`, the nullifier is 32 bytes, differs from the commitment,
and differs from the nullifier of the reversed secret `[8..1]`. -/
theorem nullifier_structure :
    (∀ (note : SparkNote) (secret : Secret),
      generate_nullifier note secret =
        Nullifier.create (blake3 (note.commitment ++ secret.as_bytes)) ∧
      (generate_nullifier note secret).bytes.length = 32 ∧
      generate_nullifier note secret = generate_nullifier note secret) ∧
    blake3 [] ≠ sha256 [] ∧
    (∃ note, create_note 1000 ⟨[1, 2, 3, 4, 5, 6, 7, 8]⟩ = .ok note ∧
      (generate_nullifier note ⟨[1, 2, 3, 4, 5, 6, 7, 8]⟩).bytes.length = 32 ∧
      (generate_nullifier note ⟨[1, 2, 3, 4, 5, 6, 7, 8]⟩).bytes ≠ note.commitment ∧
      generate_nullifier note ⟨[1, 2, 3, 4, 5, 6, 7, 8]⟩ ≠
        generate_nullifier note ⟨[8, 7, 6, 5, 4, 3, 2, 1]⟩) := by
  refine ⟨fun note secret => ⟨rfl, ?_, rfl⟩, by decide, ?_⟩
  · simp [generate_nullifier, Blake3Hasher.create, Blake3Hasher.update,
      Blake3Hasher.finalize, Nullifier.create, blake3_length]
  · exact ⟨⟨1000, compute_commitment 1000 [1, 2, 3, 4, 5, 6, 7, 8],
      ⟨[1, 2, 3, 4, 5, 6, 7, 8]⟩⟩, rfl, by decide, by decide, by decide⟩

/-- C3: spend-once for `mark_as_spent`: after a successful call on `n` the
repeat call reports `AlreadySpent` and `is_nullifier_spent` reports `true`;
membership once gained persists under any further `mark_as_spent` call; and
any failing call returns the set unchanged. -/
theorem spend_once (n : Bytes) (hn : n.length = 32) :
    (∀ S S1, mark_as_spent n S = (.ok (), S1) →
      mark_as_spent n S1 =
        (.error (SparkError.NullifierError .AlreadySpent "Nullifier is already spent"), S1) ∧
      is_nullifier_spent n S1 = true) ∧
    (∀ S2 : SpentSet, n ∈ S2 →
      mark_as_spent n S2 =
        (.error (SparkError.NullifierError .AlreadySpent "Nullifier is already spent"), S2) ∧
      is_nullifier_spent n S2 = true) ∧
    (∀ (m : Bytes) (S2 : SpentSet), n ∈ S2 → n ∈ (mark_as_spent m S2).snd) ∧
    (∀ (S2 : SpentSet) (e : SparkError),
      (mark_as_spent n S2).fst = .error e → (mark_as_spent n S2).snd = S2) := by
  have hok := validate_nullifier_ok n hn
  have hspent : ∀ S2 : SpentSet, n ∈ S2 →
      mark_as_spent n S2 =
        (.error (SparkError.NullifierError .AlreadySpent "Nullifier is already spent"), S2) ∧
      is_nullifier_spent n S2 = true := by
    intro S2 hmem
    constructor
    · rw [mark_as_spent, hok]
      simp [hmem, SparkError.nullifier_error]
    · rw [is_nullifier_spent, Nullifier.from_slice, hok]
      simp [spentContains, hmem]
  refine ⟨?_, hspent, ?_, ?_⟩
  · intro S S1 hcall
    rw [mark_as_spent, hok] at hcall
    by_cases hmem : n ∈ S
    · simp [hmem] at hcall
    · simp [hmem] at hcall
      exact hspent S1 (by rw [← hcall, spentInsert, if_neg hmem]; exact List.mem_cons_self n S)
  · intro m S2 hmem
    rw [mark_as_spent]
    cases hv : validate_nullifier m with
    | error e => exact hmem
    | ok u =>
      by_cases hm : m ∈ S2
      · simpa [hm] using hmem
      · simp only [hm, if_false]
        rw [spentInsert, if_neg hm]
        exact List.mem_cons_of_mem m hmem
  · intro S2 e hcall
    rw [mark_as_spent, hok] at hcall ⊢
    by_cases hmem : n ∈ S2
    · simp [hmem]
    · simp [hmem] at hcall


/-- Witness for C3 at `n = [1; 32]` starting from the empty set. -/
theorem spend_once_witness :
    (List.replicate 32 1 : Bytes).length = 32 ∧
    mark_as_spent (List.replicate 32 1) [] = (.ok (), [List.replicate 32 1]) ∧
    (mark_as_spent (List.replicate 32 1) [List.replicate 32 1] =
      (.error (SparkError.NullifierError .AlreadySpent "Nullifier is already spent"),
       [List.replicate 32 1]) ∧
     is_nullifier_spent (List.replicate 32 1) [List.replicate 32 1] = true) :=
  ⟨by decide, rfl,
   (spend_once (List.replicate 32 1) (by decide)).1 [] [List.replicate 32 1] rfl⟩

/-- C1: the batch spend `mark_multiple_as_spent` is *not* all-or-nothing.
The spec's concrete scenario does hold: marking `[n1, n2]` with `n1` already
spent fails and changes nothing. But reordering the same batch to
`[n2, n1]` makes the call fail *after* newly recording `n2` as spent, so a
batch containing an already-spent nullifier can leave part of the batch
applied, contradicting the claimed atomic batch semantics. -/
theorem batch_mark_partial_application :
    (mark_multiple_as_spent [List.replicate 32 1, List.replicate 32 2]
        [List.replicate 32 1] =
      (.error (SparkError.NullifierError .AlreadySpent
        "One or more nullifiers are already spent"), [List.replicate 32 1]) ∧
     (List.replicate 32 2 : Bytes) ∉ ([List.replicate 32 1] : SpentSet)) ∧
    ((mark_multiple_as_spent [List.replicate 32 2, List.replicate 32 1]
        [List.replicate 32 1]).fst =
      .error (SparkError.NullifierError .AlreadySpent
        "One or more nullifiers are already spent") ∧
     (List.replicate 32 2 : Bytes) ∈
       (mark_multiple_as_spent [List.replicate 32 2, List.replicate 32 1]
         [List.replicate 32 1]).snd ∧
     (List.replicate 32 2 : Bytes) ∉ ([List.replicate 32 1] : SpentSet)) :=
  ⟨⟨rfl, by decide⟩, ⟨rfl, by decide, by decide⟩⟩

/-- Decoding a hex digit inverts encoding, for values below 16. -/
theorem hexDigitVal_hexDigit : ∀ d < 16, hexDigitVal (hexDigit d) = some d := by
  decide

/-- Hex-decoding inverts hex-encoding on genuine byte strings
(character-list level). -/
theorem hexDecodeChars_encode (bs : Bytes) (h : ValidBytes bs) :
    hexDecodeChars ((bs.map hexEncodeByte).flatten) = some bs := by
  induction bs with
  | nil => rfl
  | cons b rest ih =>
    have hb : b < 256 := h b (List.mem_cons_self b rest)
    have hrest : ValidBytes rest := fun x hx => h x (List.mem_cons_of_mem b hx)
    have h1 := hexDigitVal_hexDigit (b / 16) (by omega)
    have h2 := hexDigitVal_hexDigit (b % 16) (by omega)
    simp [hexEncodeByte, hexDecodeChars, h1, h2, ih hrest, Nat.div_add_mod]

/-- Hex-decoding inverts hex-encoding on genuine byte strings. -/
theorem hexDecode_hexEncode (bs : Bytes) (h : ValidBytes bs) :
    hexDecode (hexEncode bs) = some bs := by
  simpa [hexDecode, hexEncode] using hexDecodeChars_encode bs h

/-- Membership in the spent set after an insert. -/
theorem mem_spentInsert (x n : Bytes) (S : SpentSet) :
    x ∈ spentInsert S n ↔ x = n ∨ x ∈ S := by
  by_cases h : n ∈ S
  · rw [spentInsert, if_pos h]
    constructor
    · exact Or.inr
    · rintro (rfl | hx)
      · exact h
      · exact hx
  · rw [spentInsert, if_neg h, List.mem_cons]

/-- The import loop succeeds on hex-encoded 32-byte strings and its result's
membership is the union of the accumulator and the encoded list. -/
theorem importLoop_encode (S : SpentSet) :
    (∀ b ∈ S, b.length = 32 ∧ ValidBytes b) → ∀ acc : SpentSet,
    ∃ R, importLoop (S.map hexEncode) acc = .ok R ∧
      ∀ x : Bytes, x ∈ R ↔ x ∈ acc ∨ x ∈ S := by
  induction S with
  | nil => exact fun _ acc => ⟨acc, rfl, by simp⟩
  | cons b rest ih =>
    intro h acc
    obtain ⟨hlen, hvb⟩ := h b (List.mem_cons_self b rest)
    have hrest : ∀ x ∈ rest, x.length = 32 ∧ ValidBytes x :=
      fun x hx => h x (List.mem_cons_of_mem b hx)
    obtain ⟨R, hR, hmem⟩ := ih hrest (spentInsert acc b)
    refine ⟨R, ?_, fun x => ?_⟩
    · simp only [List.map_cons, importLoop, hexDecode_hexEncode b hvb,
        validate_nullifier_ok b hlen]
      exact hR
    · rw [hmem x, mem_spentInsert, List.mem_cons]
      tauto

/-- C6: round-trip: importing the export of any spent set whose members are
all 32-byte strings succeeds and reproduces exactly the original
membership. `serde_json`'s faithful string round-trip for
`NullifierSetExport` is elided, as in the model of `serialization.rs`. -/
theorem export_import_round_trip (S : SpentSet)
    (h : ∀ b ∈ S, b.length = 32 ∧ ValidBytes b) :
    ∃ R, import_nullifier_set (export_nullifier_set S) = .ok R ∧
      ∀ x : Bytes, x ∈ R ↔ x ∈ S := by
  obtain ⟨R, hR, hmem⟩ := importLoop_encode S h []
  refine ⟨R, ?_, fun x => by simpa using hmem x⟩
  rw [import_nullifier_set]
  simpa [export_nullifier_set, CURRENT_VERSION] using hR

/-- Witness for C6 at the one-element set `{[1; 32]}`. -/
theorem export_import_round_trip_witness :
    (∀ b ∈ ([List.replicate 32 1] : SpentSet), b.length = 32 ∧ ValidBytes b) ∧
    ∃ R, import_nullifier_set (export_nullifier_set [List.replicate 32 1]) = .ok R ∧
      ∀ x : Bytes, x ∈ R ↔ x ∈ ([List.replicate 32 1] : SpentSet) :=
  ⟨by decide, export_import_round_trip [List.replicate 32 1] (by decide)⟩

/-- `validate_nullifier` succeeds only on 32-byte strings. -/
theorem validate_nullifier_ok_length (n : Bytes) (h : validate_nullifier n = .ok ()) :
    n.length = 32 := by
  by_contra hne
  by_cases h0 : n.length = 0
  · rw [validate_nullifier_empty n h0] at h
    exact absurd h (by simp)
  · rw [validate_nullifier_wrong_length n hne h0] at h
    exact absurd h (by simp)

/-- The import loop fails whenever some string in the list fails hex
decoding or decodes to a length other than 32. -/
theorem importLoop_malformed (L : List String) :
    ∀ acc : SpentSet,
    (∃ s ∈ L, hexDecode s = none ∨ ∃ b, hexDecode s = some b ∧ b.length ≠ 32) →
    ∃ err, importLoop L acc = .error err := by
  induction L with
  | nil =>
    intro acc h
    simp at h
  | cons s rest ih =>
    intro acc h
    cases hd : hexDecode s with
    | none =>
      exact ⟨.SerializationError "Invalid hex encoding", by simp [importLoop, hd]⟩
    | some b =>
      cases hv : validate_nullifier b with
      | error e => exact ⟨e, by simp [importLoop, hd, hv]⟩
      | ok u =>
        have hb32 : b.length = 32 := validate_nullifier_ok_length b (by cases u; exact hv)
        obtain ⟨t, ht, hbad⟩ := h
        rcases List.mem_cons.mp ht with rfl | htr
        · rcases hbad with hnone | ⟨b2, hb2, hb2len⟩
          · rw [hd] at hnone
            exact absurd hnone (by simp)
          · rw [hd] at hb2
            cases hb2
            exact absurd hb32 hb2len
        · obtain ⟨err, herr⟩ := ih (spentInsert acc b) ⟨t, htr, hbad⟩
          exact ⟨err, by simp only [importLoop, hd, hv]; exact herr⟩

/-- C9: `import_nullifier_set` fails on any payload whose version exceeds
`CURRENT_VERSION = 1`, and fails wholesale (producing no set) whenever some
nullifier string fails hex decoding or decodes to a length other than 32. -/
theorem import_rejects_malformed :
    (∀ e : NullifierSetExport, e.version > CURRENT_VERSION →
      import_nullifier_set e = .error (.SerializationError
        ("Unsupported version: " ++ toString e.version ++
         " (current: " ++ toString CURRENT_VERSION ++ ")"))) ∧
    (∀ e : NullifierSetExport,
      (∃ s ∈ e.nullifiers,
        hexDecode s = none ∨ ∃ b, hexDecode s = some b ∧ b.length ≠ 32) →
      ∃ err, import_nullifier_set e = .error err) := by
  constructor
  · intro e hv
    rw [import_nullifier_set, if_pos hv]
  · intro e hbad
    by_cases hv : e.version > CURRENT_VERSION
    · exact ⟨_, by rw [import_nullifier_set, if_pos hv]⟩
    · obtain ⟨err, herr⟩ := importLoop_malformed e.nullifiers [] hbad
      exact ⟨err, by rw [import_nullifier_set, if_neg hv]; exact herr⟩

/-- Witness for C9 at a version-2 payload and at a bad hex string. -/
theorem import_rejects_malformed_witness :
    ((⟨2, []⟩ : NullifierSetExport).version > CURRENT_VERSION ∧
     import_nullifier_set ⟨2, []⟩ = .error (.SerializationError
       ("Unsupported version: " ++ toString (⟨2, []⟩ : NullifierSetExport).version ++
        " (current: " ++ toString CURRENT_VERSION ++ ")"))) ∧
    ((∃ s ∈ (⟨1, ["zz"]⟩ : NullifierSetExport).nullifiers,
        hexDecode s = none ∨ ∃ b, hexDecode s = some b ∧ b.length ≠ 32) ∧
     ∃ err, import_nullifier_set (⟨1, ["zz"]⟩ : NullifierSetExport) = .error err) :=
  ⟨⟨by decide, (import_rejects_malformed).1 ⟨2, []⟩ (by decide)⟩,
   ⟨⟨"zz", by decide, Or.inl (by decide)⟩,
    (import_rejects_malformed).2 ⟨1, ["zz"]⟩ ⟨"zz", by decide, Or.inl (by decide)⟩⟩⟩

end Spark
